import Mathlib

/-!
Verification of the `componentHandler` registry and upgrade/downgrade lifecycle
engine of `src/dist/material.js` (material-design-lite).

The engine is embedded shallowly: the two process-wide lists
(`registeredComponents_`, `createdComponents_`), element attributes, widget
property assignments, the callback invocation trace and the dispatched-event
trace are threaded through an explicit state record `MState`.  JS strings are
Lean `String`s; the JS string/array primitives the source uses
(`indexOf`, `split(',')`, `join(',')`, `splice(i, 1)`) are modelled by
executable functions below with JS semantics (substring search, negative-index
normalisation, `-1` sentinel).  A thrown JS exception is the `Option String`
component of each operation's result, paired with the state as mutated up to
the throw.  User-supplied constructors, callbacks and teardown hooks are
opaque: the engine records their invocation but they do not touch engine state
(the spec's own re-entrancy restriction, section 5).
-/

namespace MDL

/-- `sub` is a prefix of `l` (character-wise). -/
def listStartsWith : List Char → List Char → Bool
  | _, [] => true
  | [], _ :: _ => false
  | a :: as, b :: bs => if a = b then listStartsWith as bs else false

/-- `sub` occurs as a contiguous run inside `l`; this is JS
`haystack.indexOf(needle) !== -1` on the character lists. -/
def listFindSub : List Char → List Char → Bool
  | [], sub => listStartsWith [] sub
  | a :: as, sub => listStartsWith (a :: as) sub || listFindSub as sub

/-- JS `s.indexOf(sub) !== -1`: substring containment, including the empty
needle (JS returns index 0 for it). -/
def strHasSub (s sub : String) : Bool := listFindSub s.data sub.data

/-- JS `s.split(',')` on the underlying character list. -/
def splitCommaCore : List Char → List (List Char)
  | [] => [[]]
  | c :: cs =>
    if c = ',' then [] :: splitCommaCore cs
    else
      match splitCommaCore cs with
      | [] => [[c]]
      | t :: ts => (c :: t) :: ts

/-- JS `s.split(',')`. -/
def jsSplitComma (s : String) : List String := (splitCommaCore s.data).map String.mk

/-- JS `arr.join(',')`. -/
def jsJoinComma : List String → String
  | [] => ""
  | [x] => x
  | x :: y :: ys => x ++ "," ++ jsJoinComma (y :: ys)

/-- JS `arr.splice(start, 1)` (as used at material.js:219 and :224): removes at
most one element, after JS normalisation of a negative or out-of-range start
index. -/
def jsSpliceRemove1 {α : Type} (l : List α) (start : Int) : List α :=
  let len : Int := Int.ofNat l.length
  let s : Int := if start < 0 then max (len + start) 0 else min start len
  l.take s.toNat ++ l.drop (s.toNat + 1)

/-- The shape of a component constructor function, as far as the engine
inspects it: `prototype.hasOwnProperty('mdlComponentConfigInternal_')`
(checked by `registerInternal`) and `prototype.hasOwnProperty('mdlDowngrade_')`
(checked by `deconstructComponentInternal`).  `ctorId` stands for the function
object's identity. -/
structure Ctor where
  ctorId : Nat
  hasConfigProp : Bool
  hasDowngrade : Bool
deriving DecidableEq

/-- The argument object of `componentHandler.register(config)`:
`{constructor, classAsString, cssClass, widget}`, `widget` possibly absent. -/
structure Config where
  ctor : Ctor
  classAsString : String
  cssClass : String
  widget : Option Bool
deriving DecidableEq

/-- The `newConfig` record built by `registerInternal` and stored in
`registeredComponents_`: keys `classConstructor`, `className`, `cssClass`,
`widget`, `callbacks`.  Callbacks are opaque and named by `Nat` ids. -/
structure Registration where
  classConstructor : Ctor
  className : String
  cssClass : String
  widget : Bool
  callbacks : List Nat
deriving DecidableEq

/-- The JS property read `component[componentConfigProperty_].classAsString`
performed at material.js:223.  `registerInternal` stores the class name under
the key `className` (material.js:137), not `classAsString`, so this key is
absent on the stored record and the read yields `undefined` (`none`). -/
def Registration.classAsStringRead (_r : Registration) : Option String := none

/-- A created component instance: the `element_` back-reference every component
constructor sets, the registration record assigned to
`instance[componentConfigProperty_]` at upgrade, and a serial `uid` standing
for JS object identity inside `createdComponents_`. -/
structure Instance where
  uid : Nat
  element : Nat
  config : Registration
deriving DecidableEq

/-- A DOM element: its identity and its (immutable, for this model) class
list, matched by `document.querySelectorAll('.' + cssClass)`. -/
structure DomElement where
  elemId : Nat
  classes : List String
deriving DecidableEq

/-- The full engine state: the two module-level lists of `componentHandler`,
the document, each element's `data-upgraded` attribute (absent = JS `null`),
the `element[jsClass] = instance` widget assignments (as a trace of
(element, key, instance uid)), the trace of user-callback invocations
(callback id, element), the trace of dispatched lifecycle events
(element, event type), and the next fresh instance serial. -/
structure MState where
  registeredComponents : List Registration
  createdComponents : List Instance
  doc : List DomElement
  attrs : List (Nat × String)
  props : List (Nat × String × Nat)
  callbackLog : List (Nat × Nat)
  events : List (Nat × String)
  nextUid : Nat
deriving DecidableEq

/-- `element.getAttribute('data-upgraded')`: `none` models JS `null`. -/
def getAttr : List (Nat × String) → Nat → Option String
  | [], _ => none
  | (k, v) :: rest, e => if k = e then some v else getAttr rest e

/-- `element.setAttribute('data-upgraded', v)` (also
`element.dataset.upgraded = v`). -/
def setAttr : List (Nat × String) → Nat → String → List (Nat × String)
  | [], e, v => [(e, v)]
  | (k, w) :: rest, e, v =>
    if k = e then (k, v) :: rest else (k, w) :: setAttr rest e v

/-- `findRegisteredClass_(name)` (material.js:47), without the replace
argument: first registration whose `className` equals `name`, else the JS
`false` sentinel (`none`). -/
def findRegisteredClass (name : String) : List Registration → Option Registration
  | [] => none
  | r :: rs => if r.className = name then some r else findRegisteredClass name rs

/-- `findRegisteredClass_(name, optReplace)`: overwrites the first match in
place and returns it; result is the updated list with the returned match. -/
def findRegisteredClassReplace (name : String) (repl : Registration) :
    List Registration → List Registration × Option Registration
  | [] => ([], none)
  | r :: rs =>
    if r.className = name then (repl :: rs, some repl)
    else
      let p := findRegisteredClassReplace name repl rs
      (r :: p.1, p.2)

/-- The first exception thrown by the `registeredComponents_.forEach`
validation loop of `registerInternal` (material.js:143-150): for each existing
item in order, a duplicate `cssClass` throws, then a duplicate `className`
throws. -/
def registerValidationError (newConfig : Registration) : List Registration → Option String
  | [] => none
  | item :: rest =>
    if item.cssClass = newConfig.cssClass then
      some "The provided cssClass has already been registered."
    else if item.className = newConfig.className then
      some "The provided className has already been registered"
    else registerValidationError newConfig rest

/-- `registerInternal(config)` (material.js:134-163) acting on
`registeredComponents_`.  Returns the list after the call together with the
thrown exception, if any; no list mutation precedes a throw in the source. -/
def registerM (config : Config) (regs : List Registration) :
    List Registration × Option String :=
  let newConfig : Registration :=
    { classConstructor := config.ctor
      className := config.classAsString
      cssClass := config.cssClass
      widget := config.widget.getD true
      callbacks := [] }
  match registerValidationError newConfig regs with
  | some msg => (regs, some msg)
  | none =>
    if config.ctor.hasConfigProp then
      (regs,
        some "MDL component classes must not have mdlComponentConfigInternal_ defined as a property.")
    else
      let p := findRegisteredClassReplace config.classAsString newConfig regs
      match p.2 with
      | some _ => (p.1, none)
      | none => (p.1 ++ [newConfig], none)

/-- `componentHandler.register` on the full state (only the registration list
is touched). -/
def registerState (config : Config) (s : MState) : MState × Option String :=
  let r := registerM config s.registeredComponents
  ({ s with registeredComponents := r.1 }, r.2)

/-- `registerUpgradedCallbackInternal(jsClass, callback)` (material.js:173-178):
appends the callback to the first registration named `jsClass`; silently does
nothing when no such registration exists. -/
def registerUpgradedCallback (jsClass : String) (cb : Nat) :
    List Registration → List Registration
  | [] => []
  | r :: rs =>
    if r.className = jsClass then
      { r with callbacks := r.callbacks ++ [cb] } :: rs
    else r :: registerUpgradedCallback jsClass cb rs

/-- The negation of the upgrade guard of `upgradeElementInternal`
(material.js:98): the element is skipped iff its `data-upgraded` attribute is
non-null and `indexOf(jsClass) !== -1` (substring containment, not token
membership). -/
def markerBlocks (m : Option String) (jsClass : String) : Bool :=
  match m with
  | none => false
  | some d => strHasSub d jsClass

/-- `upgradeElementInternal(element, jsClass)` (material.js:94-127).  In source
order: read the marker; if the guard passes, append `',' + jsClass` to the
marker, then resolve the registration; if found, create the instance (tagging
it with the registration), push it onto `createdComponents_`, invoke each
registered callback in order, perform the widget property assignment when the
`widget` flag is set, and dispatch `mdl-componentupgraded`; if not found,
throw (the marker mutation has already happened). -/
def upgradeElement (e : Nat) (jsClass : String) (s : MState) : MState × Option String :=
  let dataUpgraded := getAttr s.attrs e
  if markerBlocks dataUpgraded jsClass then (s, none)
  else
    let s1 := { s with attrs := setAttr s.attrs e ((dataUpgraded.getD "") ++ "," ++ jsClass) }
    match findRegisteredClass jsClass s1.registeredComponents with
    | some rc =>
      let inst : Instance := { uid := s1.nextUid, element := e, config := rc }
      let s2 := { s1 with
        createdComponents := s1.createdComponents ++ [inst]
        nextUid := s1.nextUid + 1
        callbackLog := s1.callbackLog ++ rc.callbacks.map (fun c => (c, e))
        props := if rc.widget then s1.props ++ [(e, jsClass, inst.uid)] else s1.props }
      ({ s2 with events := s2.events ++ [(e, "mdl-componentupgraded")] }, none)
    | none =>
      (s1, some "Unable to find a registered component for the given class.")

/-- `findCreatedComponentByNodeInternal(node)` (material.js:196-203): first
live instance whose `element_` is `node`, else `undefined` (`none`). -/
def findCreatedComponentByNode : List Instance → Nat → Option Instance
  | [], _ => none
  | i :: rest, e => if i.element = e then some i else findCreatedComponentByNode rest e

/-- JS `createdComponents_.indexOf(component)` (strict object identity,
modelled by the instance serial): index of the first occurrence, else `-1`. -/
def jsIndexOfUidAux : List Instance → Nat → Nat → Int
  | [], _, _ => -1
  | i :: rest, u, k => if i.uid = u then Int.ofNat k else jsIndexOfUidAux rest u (k + 1)

def jsIndexOfUid (l : List Instance) (u : Nat) : Int := jsIndexOfUidAux l u 0

/-- JS `upgrades.indexOf(x)` where `x` is a possibly-`undefined` string: an
`undefined` needle is strictly equal to no string token, so the result is
`-1`. -/
def jsIndexOfStrAux : List String → String → Nat → Int
  | [], _, _ => -1
  | t :: rest, v, k => if t = v then Int.ofNat k else jsIndexOfStrAux rest v (k + 1)

def jsIndexOfStrOpt (l : List String) (x : Option String) : Int :=
  match x with
  | none => -1
  | some v => jsIndexOfStrAux l v 0

/-- `deconstructComponentInternal(component)` (material.js:212-231).  A falsy
argument or a constructor prototype without the `mdlDowngrade_` hook is a
silent no-op.  Otherwise: invoke the teardown hook (opaque), splice the
component out of `createdComponents_` at its `indexOf`, re-read the marker
(`dataset.upgraded`; an absent attribute makes the `.split` call throw a
TypeError), split it on commas, splice out the token at
`indexOf(config.classAsString)` — which is `indexOf(undefined) = -1`, i.e. the
LAST token, because the stored record has no `classAsString` key — rejoin,
store the marker back, and dispatch `mdl-componentdowngraded`. -/
def deconstructComponent (component : Option Instance) (s : MState) : MState × Option String :=
  match component with
  | none => (s, none)
  | some inst =>
    if inst.config.classConstructor.hasDowngrade then
      let s1 := { s with
        createdComponents :=
          jsSpliceRemove1 s.createdComponents (jsIndexOfUid s.createdComponents inst.uid) }
      match getAttr s1.attrs inst.element with
      | none =>
        (s1, some "TypeError: component.element_.dataset.upgraded is undefined")
      | some d =>
        let upgrades := jsSplitComma d
        let componentPlace := jsIndexOfStrOpt upgrades inst.config.classAsStringRead
        let upgrades2 := jsSpliceRemove1 upgrades componentPlace
        let s2 := { s1 with attrs := setAttr s1.attrs inst.element (jsJoinComma upgrades2) }
        ({ s2 with events := s2.events ++ [(inst.element, "mdl-componentdowngraded")] }, none)
    else (s, none)

/-- The argument shapes accepted by `downgradeNodesInternal`: a single node, an
array/NodeList of nodes, or anything else (which throws). -/
inductive NodesArg where
  | node : Nat → NodesArg
  | array : List Nat → NodesArg
  | invalid : NodesArg

/-- The loop body of `downgradeNodesInternal` applied over an array of nodes;
an exception aborts the remaining iterations. -/
def downgradeList : List Nat → MState → MState × Option String
  | [], s => (s, none)
  | e :: es, s =>
    match deconstructComponent (findCreatedComponentByNode s.createdComponents e) s with
    | (s1, none) => downgradeList es s1
    | (s1, some msg) => (s1, some msg)

/-- `downgradeNodesInternal(nodes)` (material.js:238-251), the public
`componentHandler.downgradeElements`. -/
def downgradeElements (nodes : NodesArg) (s : MState) : MState × Option String :=
  match nodes with
  | .array es => downgradeList es s
  | .node e => deconstructComponent (findCreatedComponentByNode s.createdComponents e) s
  | .invalid => (s, some "Invalid argument provided to downgrade MDL nodes.")

/-- `document.querySelectorAll('.' + cssClass)`: the elements carrying the
class token, in document order. -/
def queryByClass (doc : List DomElement) (cls : String) : List Nat :=
  (doc.filter (fun el => el.classes.contains cls)).map DomElement.elemId

/-- The element loop of `upgradeDomInternal` (material.js:82-84) over the
static query snapshot; an exception aborts the remaining iterations. -/
def upgradeElementsLoop : List Nat → String → MState → MState × Option String
  | [], _, s => (s, none)
  | e :: es, jsClass, s =>
    match upgradeElement e jsClass s with
    | (s1, none) => upgradeElementsLoop es jsClass s1
    | (s1, some msg) => (s1, some msg)

/-- `upgradeDomInternal(jsClass, cssClass)` with `jsClass` given
(material.js:73-85): when `cssClass` is `undefined` it is resolved from the
registration when one exists; the query selector string is `'.' + cssClass`,
which for a still-undefined `cssClass` is the literal class `"undefined"`. -/
def upgradeDomSingle (jsClass : String) (cssOpt : Option String) (s : MState) :
    MState × Option String :=
  let css : Option String :=
    match cssOpt with
    | some c => some c
    | none =>
      match findRegisteredClass jsClass s.registeredComponents with
      | some rc => some rc.cssClass
      | none => none
  upgradeElementsLoop (queryByClass s.doc (css.getD "undefined")) jsClass s

/-- The registration loop of `upgradeDomInternal(undefined, undefined)`
(material.js:69-72): each registration is scanned with its own `className` and
`cssClass`. -/
def upgradeDomList : List Registration → MState → MState × Option String
  | [], s => (s, none)
  | r :: rs, s =>
    match upgradeDomSingle r.className (some r.cssClass) s with
    | (s1, none) => upgradeDomList rs s1
    | (s1, some msg) => (s1, some msg)

/-- `upgradeDomInternal()` with both arguments omitted — `scanDocument()` with
no arguments, the full bootstrap pass. -/
def upgradeDomAll (s : MState) : MState × Option String :=
  upgradeDomList s.registeredComponents s

/-- The registration loop of `upgradeAllRegisteredInternal` (material.js:184-188):
each registration is scanned by `upgradeDomInternal(className)` with the
`cssClass` argument omitted. -/
def upgradeAllRegisteredList : List Registration → MState → MState × Option String
  | [], s => (s, none)
  | r :: rs, s =>
    match upgradeDomSingle r.className none s with
    | (s1, none) => upgradeAllRegisteredList rs s1
    | (s1, some msg) => (s1, some msg)

/-- `upgradeAllRegisteredInternal()`. -/
def upgradeAllRegistered (s : MState) : MState × Option String :=
  upgradeAllRegisteredList s.registeredComponents s

/-- Number of live instances for the pair (element `e`, behavior id `b`):
instances in `createdComponents_` whose `element_` is `e` and whose tagged
registration is named `b`. -/
def countInstancesFor (l : List Instance) (e : Nat) (b : String) : Nat :=
  (l.filter (fun i => decide (i.element = e ∧ i.config.className = b))).length

/-- Number of comma-split tokens of the marker equal to the behavior id `b`
(zero when the attribute is absent). -/
def markerTokenCount (m : Option String) (b : String) : Nat :=
  match m with
  | none => 0
  | some d => ((jsSplitComma d).filter (fun t => t = b)).length

/-- An empty engine state over a given registration list and document. -/
def initState (regs : List Registration) (doc : List DomElement) : MState :=
  { registeredComponents := regs
    createdComponents := []
    doc := doc
    attrs := []
    props := []
    callbackLog := []
    events := []
    nextUid := 0 }

/-- A constructor shape with no reserved config property and no teardown
hook. -/
def plainCtor : Ctor := { ctorId := 0, hasConfigProp := false, hasDowngrade := false }

/-- A constructor shape whose prototype defines the `mdlDowngrade_` teardown
hook. -/
def teardownCtor : Ctor := { ctorId := 1, hasConfigProp := false, hasDowngrade := true }

/-- A registration whose behavior id is the empty string and whose instances
carry a teardown hook. -/
def emptyIdReg : Registration :=
  { classConstructor := teardownCtor, className := "", cssClass := "mdl-js-x"
    widget := true, callbacks := [] }

/-- A registration named `"MaterialButton"`. -/
def buttonReg : Registration :=
  { classConstructor := plainCtor, className := "MaterialButton", cssClass := "mdl-js-button"
    widget := true, callbacks := [] }

/-- A registration named `"MaterialButton"` whose constructor prototype has
the `mdlDowngrade_` teardown hook. -/
def tdButtonReg : Registration :=
  { classConstructor := teardownCtor, className := "MaterialButton"
    cssClass := "mdl-js-button", widget := true, callbacks := [] }

/-- A registration named `"A"` with selector `"a"` and one already-attached
upgrade callback. -/
def regA : Registration :=
  { classConstructor := plainCtor, className := "A", cssClass := "a"
    widget := true, callbacks := [5] }

/-- A registration attempt reusing the id `"A"` with a fresh selector. -/
def cfgA2 : Config :=
  { ctor := { ctorId := 2, hasConfigProp := false, hasDowngrade := false }
    classAsString := "A", cssClass := "b", widget := none }

/-- A registration attempt reusing the selector `"a"` under a fresh id. -/
def cfgB : Config :=
  { ctor := { ctorId := 3, hasConfigProp := false, hasDowngrade := false }
    classAsString := "B", cssClass := "a", widget := none }

end MDL

namespace MDL

/-! Helper lemmas about the JS string and array primitives. -/

theorem string_data_append (a b : String) : (a ++ b).data = a.data ++ b.data := rfl

theorem string_mk_data (s : String) : String.mk s.data = s := rfl

theorem string_nil_append (s : String) : "" ++ s = s := rfl

theorem string_ne_empty_data {B : String} (h : B ≠ "") : B.data ≠ [] := by
  intro hd
  apply h
  cases B
  cases hd
  rfl

theorem listStartsWith_refl (l : List Char) : listStartsWith l l = true := by
  induction l with
  | nil => rfl
  | cons a as ih => simp [listStartsWith, ih]

theorem listFindSub_refl (l : List Char) : listFindSub l l = true := by
  cases l with
  | nil => rfl
  | cons a as => simp [listFindSub, listStartsWith_refl]

theorem listFindSub_append (l₁ l₂ : List Char) : listFindSub (l₁ ++ l₂) l₂ = true := by
  induction l₁ with
  | nil => simpa using listFindSub_refl l₂
  | cons a as ih => simp [listFindSub, ih]

theorem listFindSub_nil {sub : List Char} (h : sub ≠ []) : listFindSub [] sub = false := by
  cases sub with
  | nil => exact absurd rfl h
  | cons b bs => rfl

theorem strHasSub_suffix (d B : String) : strHasSub (d ++ B) B = true := by
  unfold strHasSub
  rw [string_data_append]
  exact listFindSub_append d.data B.data

theorem strHasSub_empty_left {B : String} (h : B ≠ "") : strHasSub "" B = false := by
  unfold strHasSub
  exact listFindSub_nil (string_ne_empty_data h)

theorem splitCommaCore_comma_free : ∀ l : List Char, ',' ∉ l → splitCommaCore l = [l]
  | [], _ => rfl
  | c :: cs, h => by
    have hc : ¬ c = ',' := fun hh => h (hh ▸ List.mem_cons_self c cs)
    have hcs : ',' ∉ cs := fun hh => h (List.mem_cons_of_mem c hh)
    simp [splitCommaCore, hc, splitCommaCore_comma_free cs hcs]

theorem jsSplitComma_comma_cons (B : String) (h : ',' ∉ B.data) :
    jsSplitComma ("," ++ B) = ["", B] := by
  unfold jsSplitComma
  rw [string_data_append]
  show (splitCommaCore (',' :: B.data)).map String.mk = _
  simp [splitCommaCore, splitCommaCore_comma_free B.data h, string_mk_data]

theorem getAttr_setAttr_self (a : List (Nat × String)) (e : Nat) (v : String) :
    getAttr (setAttr a e v) e = some v := by
  induction a with
  | nil => simp [setAttr, getAttr]
  | cons kv rest ih =>
    obtain ⟨k, w⟩ := kv
    by_cases h : k = e <;> simp [setAttr, getAttr, h, ih]

theorem jsSpliceRemove1_pair {α : Type} (a b : α) :
    jsSpliceRemove1 [a, b] (-1) = [a] := by
  norm_num [jsSpliceRemove1]

theorem jsSpliceRemove1_ofNat_last {α : Type} (l : List α) (x : α) :
    jsSpliceRemove1 (l ++ [x]) (Int.ofNat l.length) = l := by
  unfold jsSpliceRemove1
  have h0 : ¬ (Int.ofNat l.length < 0) := by
    rw [Int.ofNat_eq_coe]
    omega
  have hmin : min (Int.ofNat l.length) (Int.ofNat (l ++ [x]).length) = Int.ofNat l.length := by
    simp
  have ht : (Int.ofNat l.length).toNat = l.length := by
    rw [Int.ofNat_eq_coe]
    omega
  simp only [h0, if_false, hmin, ht]
  rw [List.take_left, List.drop_eq_nil_of_le (by simp)]
  simp

/-! Lemmas about the registry operations. -/

theorem findRegisteredClass_className (B : String) :
    ∀ (regs : List Registration) (rc : Registration),
      findRegisteredClass B regs = some rc → rc.className = B
  | [], rc, h => by simp [findRegisteredClass] at h
  | r :: rs, rc, h => by
    by_cases hr : r.className = B
    · rw [findRegisteredClass, if_pos hr] at h
      cases h
      exact hr
    · rw [findRegisteredClass, if_neg hr] at h
      exact findRegisteredClass_className B rs rc h

theorem findRegisteredClass_addCallback (B : String) (cb : Nat) :
    ∀ regs : List Registration,
      findRegisteredClass B (registerUpgradedCallback B cb regs) =
        (findRegisteredClass B regs).map
          (fun r => { r with callbacks := r.callbacks ++ [cb] })
  | [] => rfl
  | r :: rs => by
    by_cases hr : r.className = B
    · simp [registerUpgradedCallback, findRegisteredClass, hr]
    · simp [registerUpgradedCallback, findRegisteredClass, hr,
        findRegisteredClass_addCallback B cb rs]

theorem findRegisteredClass_mem (regs : List Registration) (r : Registration)
    (hU : regs.Pairwise (fun a b => a.className ≠ b.className))
    (hm : r ∈ regs) : findRegisteredClass r.className regs = some r := by
  induction regs with
  | nil => cases hm
  | cons x xs ih =>
    rw [List.pairwise_cons] at hU
    rcases List.mem_cons.mp hm with h | h
    · subst h
      simp [findRegisteredClass]
    · have hx : ¬ x.className = r.className := hU.1 r h
      rw [findRegisteredClass, if_neg hx]
      exact ih hU.2 h

theorem registerValidationError_isSome (nc : Registration) :
    ∀ regs : List Registration,
      (∃ r ∈ regs, r.cssClass = nc.cssClass ∨ r.className = nc.className) →
      ∃ msg, registerValidationError nc regs = some msg
  | [], h => by simp at h
  | item :: rest, h => by
    by_cases h1 : item.cssClass = nc.cssClass
    · exact ⟨_, by rw [registerValidationError, if_pos h1]⟩
    · by_cases h2 : item.className = nc.className
      · exact ⟨_, by rw [registerValidationError, if_neg h1, if_pos h2]⟩
      · rcases h with ⟨r, hr, hcase⟩
        rcases List.mem_cons.mp hr with rfl | hr2
        · rcases hcase with hc | hc
          · exact absurd hc h1
          · exact absurd hc h2
        · have := registerValidationError_isSome nc rest ⟨r, hr2, hcase⟩
          rcases this with ⟨msg, hmsg⟩
          exact ⟨msg, by rw [registerValidationError, if_neg h1, if_neg h2]; exact hmsg⟩

theorem registerM_error_of_validation (cfg : Config) (regs : List Registration)
    (h : ∃ r ∈ regs, r.cssClass = cfg.cssClass ∨ r.className = cfg.classAsString) :
    ∃ msg, registerM cfg regs = (regs, some msg) := by
  rcases registerValidationError_isSome
    { classConstructor := cfg.ctor, className := cfg.classAsString,
      cssClass := cfg.cssClass, widget := cfg.widget.getD true, callbacks := [] }
    regs h with ⟨msg, hmsg⟩
  exact ⟨msg, by simp [registerM, hmsg]⟩

/-! Branch characterisations of `upgradeElement`. -/

theorem upgradeElement_blocked (s : MState) (e : Nat) (B : String)
    (hA : markerBlocks (getAttr s.attrs e) B = true) :
    upgradeElement e B s = (s, none) := by
  unfold upgradeElement
  simp [hA]

theorem upgradeElement_success (s : MState) (e : Nat) (B : String) (rc : Registration)
    (hA : markerBlocks (getAttr s.attrs e) B = false)
    (hf : findRegisteredClass B s.registeredComponents = some rc) :
    upgradeElement e B s =
      ({ s with
          attrs := setAttr s.attrs e (((getAttr s.attrs e).getD "") ++ "," ++ B)
          createdComponents :=
            s.createdComponents ++ [{ uid := s.nextUid, element := e, config := rc }]
          nextUid := s.nextUid + 1
          callbackLog := s.callbackLog ++ rc.callbacks.map (fun c => (c, e))
          props := if rc.widget then s.props ++ [(e, B, s.nextUid)] else s.props
          events := s.events ++ [(e, "mdl-componentupgraded")] }, none) := by
  unfold upgradeElement
  simp [hA, hf]

theorem upgradeElement_unregisteredBranch (s : MState) (e : Nat) (B : String)
    (hA : markerBlocks (getAttr s.attrs e) B = false)
    (hf : findRegisteredClass B s.registeredComponents = none) :
    upgradeElement e B s =
      ({ s with attrs := setAttr s.attrs e (((getAttr s.attrs e).getD "") ++ "," ++ B) },
        some "Unable to find a registered component for the given class.") := by
  unfold upgradeElement
  simp [hA, hf]

end MDL

namespace MDL

/-- Claim C10: the idempotency guard of `upgradeElement` tests substring
containment of the behavior id in the marker string, not comma-split token
membership: on an element whose marker is `",MaterialButton"`, the id
`"Material"` is not among the comma-split tokens, yet `upgradeElement` with
`"Material"` (not even registered) returns immediately with the state
unchanged and no instance created. -/
theorem upgrade_guard_substring_not_token :
    upgradeElement 0 "Material" { initState [] [] with attrs := [(0, ",MaterialButton")] } =
      ({ initState [] [] with attrs := [(0, ",MaterialButton")] }, none) ∧
    "Material" ∉ jsSplitComma ",MaterialButton" := by
  decide

/-- Claim C4: registering a configuration whose selector (`cssClass`) is
already used by a different existing registration throws a configuration
error, and the registration list after the failed call is the unchanged input
list. -/
theorem register_duplicate_selector_rejected (regs : List Registration) (cfg : Config)
    (h : ∃ r ∈ regs, r.cssClass = cfg.cssClass ∧ r.className ≠ cfg.classAsString) :
    ∃ msg, registerM cfg regs = (regs, some msg) := by
  apply registerM_error_of_validation
  rcases h with ⟨r, hr, h1, _⟩
  exact ⟨r, hr, Or.inl h1⟩

theorem register_duplicate_selector_rejected_witness :
    ∃ msg, registerM cfgB [regA] = ([regA], some msg) :=
  register_duplicate_selector_rejected [regA] cfgB (by decide)

/-- Claim C3 counterexample: submitting a registration with the id `"A"` while
a registration with id `"A"` already exists is NOT replaced in place — the
call throws the duplicate-className configuration error and the list keeps the
old registration, its callbacks included.  (The replacement path of
`findRegisteredClass_` is unreachable from `registerInternal`: the validation
loop throws on any duplicate id first.) -/
theorem register_duplicate_id_not_replaced :
    registerM cfgA2 [regA] =
      ([regA], some "The provided className has already been registered") := by
  decide

/-- Claim C3 (amended): a registration whose id (`classAsString`) equals an
existing registration's id never passes validation: `register` throws a
configuration error and the registration list is unchanged — it is rejected,
not replaced and not appended. -/
theorem register_duplicate_id_rejected (regs : List Registration) (cfg : Config)
    (h : ∃ r ∈ regs, r.className = cfg.classAsString) :
    ∃ msg, registerM cfg regs = (regs, some msg) := by
  apply registerM_error_of_validation
  rcases h with ⟨r, hr, h1⟩
  exact ⟨r, hr, Or.inr h1⟩

theorem register_duplicate_id_rejected_witness :
    ∃ msg, registerM cfgA2 [regA] = ([regA], some msg) :=
  register_duplicate_id_rejected [regA] cfgA2 (by decide)

/-- Claim C5: if the element's marker does not already carry the behavior id
(under the code's own guard test; in particular a fresh element) and the id
has no registration, `upgradeElement` throws the usage error and pushes no
instance onto the live list. -/
theorem upgradeElement_unregistered_raises (s : MState) (e : Nat) (B : String)
    (hA : markerBlocks (getAttr s.attrs e) B = false)
    (hf : findRegisteredClass B s.registeredComponents = none) :
    (upgradeElement e B s).2 =
      some "Unable to find a registered component for the given class." ∧
    (upgradeElement e B s).1.createdComponents = s.createdComponents := by
  rw [upgradeElement_unregisteredBranch s e B hA hf]
  exact ⟨rfl, rfl⟩

theorem upgradeElement_unregistered_raises_witness :
    (upgradeElement 0 "Foo" (initState [] [])).2 =
      some "Unable to find a registered component for the given class." ∧
    (upgradeElement 0 "Foo" (initState [] [])).1.createdComponents =
      (initState [] []).createdComponents :=
  upgradeElement_unregistered_raises (initState [] []) 0 "Foo" (by decide) (by decide)

/-- Claim C7: `downgrade` of a single element is a silent no-op — the state is
unchanged (the live instance, if any, stays in the list and the marker is not
cleared) and no error is raised — when the live instance found for the element
comes from a constructor without the `mdlDowngrade_` teardown hook, and
likewise when the element has no live instance at all. -/
theorem downgrade_without_teardown_noop (s : MState) (e : Nat)
    (h : findCreatedComponentByNode s.createdComponents e = none ∨
      ∃ inst, findCreatedComponentByNode s.createdComponents e = some inst ∧
        inst.config.classConstructor.hasDowngrade = false) :
    downgradeElements (NodesArg.node e) s = (s, none) := by
  show deconstructComponent (findCreatedComponentByNode s.createdComponents e) s = (s, none)
  rcases h with h | ⟨inst, hfind, hdg⟩
  · rw [h]
    rfl
  · rw [hfind]
    unfold deconstructComponent
    simp [hdg]

theorem downgrade_without_teardown_noop_witness :
    downgradeElements (NodesArg.node 0)
      { initState [buttonReg] [] with
          createdComponents := [{ uid := 0, element := 0, config := buttonReg }]
          attrs := [(0, ",MaterialButton")]
          nextUid := 1 } =
      ({ initState [buttonReg] [] with
          createdComponents := [{ uid := 0, element := 0, config := buttonReg }]
          attrs := [(0, ",MaterialButton")]
          nextUid := 1 }, none) :=
  downgrade_without_teardown_noop _ 0
    (Or.inr ⟨{ uid := 0, element := 0, config := buttonReg }, by decide, by decide⟩)

/-- Claim C9: when `upgradeElement(E, B)` throws because `B` has no
registration, the marker has already been mutated to contain `B` before the
throw and no instance was created; consequently, after any later `register`
call (in particular one that registers `B`), a further `upgradeElement(E, B)`
is a silent no-op — it returns the state unchanged with no error, so an
instance for `(E, B)` is never created. -/
theorem failed_upgrade_poisons_marker (s : MState) (e : Nat) (B : String) (cfg : Config)
    (hA : markerBlocks (getAttr s.attrs e) B = false)
    (hf : findRegisteredClass B s.registeredComponents = none) :
    (upgradeElement e B s).2.isSome = true ∧
    (upgradeElement e B s).1.createdComponents = s.createdComponents ∧
    (∃ d, getAttr (upgradeElement e B s).1.attrs e = some d ∧ strHasSub d B = true) ∧
    upgradeElement e B (registerState cfg (upgradeElement e B s).1).1 =
      ((registerState cfg (upgradeElement e B s).1).1, none) := by
  rw [upgradeElement_unregisteredBranch s e B hA hf]
  refine ⟨rfl, rfl, ⟨(getAttr s.attrs e).getD "" ++ "," ++ B, ?_, ?_⟩, ?_⟩
  · exact getAttr_setAttr_self s.attrs e _
  · exact strHasSub_suffix ((getAttr s.attrs e).getD "" ++ ",") B
  · apply upgradeElement_blocked
    show markerBlocks
      (getAttr (setAttr s.attrs e ((getAttr s.attrs e).getD "" ++ "," ++ B)) e) B = true
    rw [getAttr_setAttr_self]
    show strHasSub ((getAttr s.attrs e).getD "" ++ "," ++ B) B = true
    exact strHasSub_suffix ((getAttr s.attrs e).getD "" ++ ",") B

theorem failed_upgrade_poisons_marker_witness :
    (upgradeElement 0 "MaterialButton" (initState [] [⟨0, ["mdl-js-button"]⟩])).2.isSome = true ∧
    (upgradeElement 0 "MaterialButton"
      (initState [] [⟨0, ["mdl-js-button"]⟩])).1.createdComponents =
      (initState [] [⟨0, ["mdl-js-button"]⟩]).createdComponents ∧
    (∃ d, getAttr
        (upgradeElement 0 "MaterialButton"
          (initState [] [⟨0, ["mdl-js-button"]⟩])).1.attrs 0 = some d ∧
      strHasSub d "MaterialButton" = true) ∧
    upgradeElement 0 "MaterialButton"
        (registerState
          { ctor := plainCtor, classAsString := "MaterialButton",
            cssClass := "mdl-js-button", widget := none }
          (upgradeElement 0 "MaterialButton" (initState [] [⟨0, ["mdl-js-button"]⟩])).1).1 =
      ((registerState
          { ctor := plainCtor, classAsString := "MaterialButton",
            cssClass := "mdl-js-button", widget := none }
          (upgradeElement 0 "MaterialButton" (initState [] [⟨0, ["mdl-js-button"]⟩])).1).1, none) :=
  failed_upgrade_poisons_marker (initState [] [⟨0, ["mdl-js-button"]⟩]) 0 "MaterialButton"
    { ctor := plainCtor, classAsString := "MaterialButton",
      cssClass := "mdl-js-button", widget := none }
    (by decide) (by decide)

end MDL

namespace MDL

theorem countInstancesFor_append (l₁ l₂ : List Instance) (e : Nat) (b : String) :
    countInstancesFor (l₁ ++ l₂) e b = countInstancesFor l₁ e b + countInstancesFor l₂ e b := by
  simp [countInstancesFor, List.filter_append]

theorem countInstancesFor_single_match (i : Instance) (e : Nat) (b : String)
    (h1 : i.element = e) (h2 : i.config.className = b) :
    countInstancesFor [i] e b = 1 := by
  simp [countInstancesFor, h1, h2]

theorem markerTokenCount_comma_self (B : String) (hB : B ≠ "") (hBc : ',' ∉ B.data) :
    markerTokenCount (some ("," ++ B)) B = 1 := by
  have h0 : ¬ (("" : String) = B) := fun h => hB h.symm
  show ((jsSplitComma ("," ++ B)).filter (fun t => t = B)).length = 1
  rw [jsSplitComma_comma_cons B hBc]
  simp [h0]

/-- Claim C1 counterexample: the empty string is accepted by `register` as a
behavior id; upgrading a fresh element with it twice leaves the marker `","`,
whose comma-split token list carries the token `""` twice, not exactly once
(one instance is created, but the marker part of the claim fails). -/
theorem upgrade_twice_empty_id_double_token :
    countInstancesFor
      (upgradeElement 0 "" (upgradeElement 0 "" (initState [emptyIdReg] [])).1).1.createdComponents
      0 "" = 1 ∧
    markerTokenCount
      (getAttr (upgradeElement 0 "" (upgradeElement 0 "" (initState [emptyIdReg] [])).1).1.attrs 0)
      "" = 2 ∧
    ¬ (countInstancesFor
        (upgradeElement 0 "" (upgradeElement 0 "" (initState [emptyIdReg] [])).1).1.createdComponents
        0 "" = 1 ∧
      markerTokenCount
        (getAttr (upgradeElement 0 "" (upgradeElement 0 "" (initState [emptyIdReg] [])).1).1.attrs 0)
        "" = 1) := by
  decide

/-- Claim C1 (amended): for a registered behavior whose id is nonempty and
comma-free (as every id shipped by the library is) and an element with no
marker and no live `(E, B)` instance, calling `upgradeElement(E, B)` twice in
sequence raises no error and results in exactly one live `(E, B)` instance and
a marker carrying the token `B` exactly once. -/
theorem upgradeElement_idempotent (s : MState) (e : Nat) (B : String) (rc : Registration)
    (hB : B ≠ "") (hBc : ',' ∉ B.data)
    (hA : getAttr s.attrs e = none)
    (hf : findRegisteredClass B s.registeredComponents = some rc)
    (hcount : countInstancesFor s.createdComponents e B = 0) :
    (upgradeElement e B s).2 = none ∧
    (upgradeElement e B (upgradeElement e B s).1).2 = none ∧
    countInstancesFor
      (upgradeElement e B (upgradeElement e B s).1).1.createdComponents e B = 1 ∧
    markerTokenCount
      (getAttr (upgradeElement e B (upgradeElement e B s).1).1.attrs e) B = 1 := by
  have hA' : markerBlocks (getAttr s.attrs e) B = false := by rw [hA]; rfl
  have h1 := upgradeElement_success s e B rc hA' hf
  rw [hA] at h1
  simp only [Option.getD_none, string_nil_append] at h1
  rw [h1]
  have hattr : getAttr (setAttr s.attrs e ("," ++ B)) e = some ("," ++ B) :=
    getAttr_setAttr_self s.attrs e _
  have hblock :
      markerBlocks (getAttr (setAttr s.attrs e ("," ++ B)) e) B = true := by
    rw [hattr]
    show strHasSub ("," ++ B) B = true
    exact strHasSub_suffix "," B
  rw [upgradeElement_blocked _ e B hblock]
  refine ⟨rfl, rfl, ?_, ?_⟩
  · show countInstancesFor
      (s.createdComponents ++ [{ uid := s.nextUid, element := e, config := rc }]) e B = 1
    rw [countInstancesFor_append, hcount,
      countInstancesFor_single_match _ e B rfl (findRegisteredClass_className B _ rc hf)]
  · show markerTokenCount (getAttr (setAttr s.attrs e ("," ++ B)) e) B = 1
    rw [hattr]
    exact markerTokenCount_comma_self B hB hBc

theorem upgradeElement_idempotent_witness :
    (upgradeElement 0 "MaterialButton" (initState [buttonReg] [])).2 = none ∧
    (upgradeElement 0 "MaterialButton"
      (upgradeElement 0 "MaterialButton" (initState [buttonReg] [])).1).2 = none ∧
    countInstancesFor
      (upgradeElement 0 "MaterialButton"
        (upgradeElement 0 "MaterialButton" (initState [buttonReg] [])).1).1.createdComponents
      0 "MaterialButton" = 1 ∧
    markerTokenCount
      (getAttr (upgradeElement 0 "MaterialButton"
        (upgradeElement 0 "MaterialButton" (initState [buttonReg] [])).1).1.attrs 0)
      "MaterialButton" = 1 :=
  upgradeElement_idempotent (initState [buttonReg] []) 0 "MaterialButton" buttonReg
    (by decide) (by decide) (by decide) (by decide) (by decide)

/-- Claim C6: after attaching callbacks `c1` then `c2` (in that order) to a
registered behavior `B`, a successful `upgradeElement` with `B` extends the
callback invocation trace by the registration's previously attached callbacks
followed by `c1` and then `c2`, each invoked on the upgraded element — in
particular `c1` runs before `c2`. -/
theorem upgrade_callbacks_in_order (s : MState) (e : Nat) (B : String)
    (c1 c2 : Nat) (rc : Registration)
    (hf : findRegisteredClass B s.registeredComponents = some rc)
    (hA : markerBlocks (getAttr s.attrs e) B = false) :
    (upgradeElement e B
      { s with
          registeredComponents := registerUpgradedCallback B c2
            (registerUpgradedCallback B c1 s.registeredComponents) }).2 = none ∧
    (upgradeElement e B
      { s with
          registeredComponents := registerUpgradedCallback B c2
            (registerUpgradedCallback B c1 s.registeredComponents) }).1.callbackLog =
      s.callbackLog ++ rc.callbacks.map (fun c => (c, e)) ++ [(c1, e), (c2, e)] := by
  have hf2 : findRegisteredClass B
      (registerUpgradedCallback B c2 (registerUpgradedCallback B c1 s.registeredComponents)) =
      some { rc with callbacks := rc.callbacks ++ [c1] ++ [c2] } := by
    rw [findRegisteredClass_addCallback, findRegisteredClass_addCallback, hf]
    rfl
  rw [upgradeElement_success
    { s with
        registeredComponents := registerUpgradedCallback B c2
          (registerUpgradedCallback B c1 s.registeredComponents) }
    e B _ hA hf2]
  refine ⟨rfl, ?_⟩
  show s.callbackLog ++ (rc.callbacks ++ [c1] ++ [c2]).map (fun c => (c, e)) = _
  simp

theorem upgrade_callbacks_in_order_witness :
    (upgradeElement 0 "MaterialButton"
      { initState [buttonReg] [] with
          registeredComponents := registerUpgradedCallback "MaterialButton" 8
            (registerUpgradedCallback "MaterialButton" 7
              (initState [buttonReg] []).registeredComponents) }).2 = none ∧
    (upgradeElement 0 "MaterialButton"
      { initState [buttonReg] [] with
          registeredComponents := registerUpgradedCallback "MaterialButton" 8
            (registerUpgradedCallback "MaterialButton" 7
              (initState [buttonReg] []).registeredComponents) }).1.callbackLog =
      (initState [buttonReg] []).callbackLog ++
        buttonReg.callbacks.map (fun c => (c, 0)) ++ [(7, 0), (8, 0)] :=
  upgrade_callbacks_in_order (initState [buttonReg] []) 0 "MaterialButton" 7 8 buttonReg
    (by decide) (by decide)

end MDL

namespace MDL

theorem findByNode_append_last (l : List Instance) (inst : Instance) (e : Nat)
    (h : ∀ i ∈ l, i.element ≠ e) (he : inst.element = e) :
    findCreatedComponentByNode (l ++ [inst]) e = some inst := by
  induction l with
  | nil => simp [findCreatedComponentByNode, he]
  | cons x xs ih =>
    have hx : ¬ x.element = e := h x (List.mem_cons_self x xs)
    simp only [List.cons_append, findCreatedComponentByNode, if_neg hx]
    exact ih fun i hi => h i (List.mem_cons_of_mem x hi)

theorem jsIndexOfUidAux_append (inst : Instance) :
    ∀ (l : List Instance) (k : Nat), (∀ i ∈ l, i.uid ≠ inst.uid) →
      jsIndexOfUidAux (l ++ [inst]) inst.uid k = Int.ofNat (k + l.length)
  | [], k, _ => by simp [jsIndexOfUidAux]
  | x :: xs, k, h => by
    have hx : ¬ x.uid = inst.uid := h x (List.mem_cons_self x xs)
    have ih := jsIndexOfUidAux_append inst xs (k + 1)
      (fun i hi => h i (List.mem_cons_of_mem x hi))
    show (if x.uid = inst.uid then Int.ofNat k
      else jsIndexOfUidAux (xs ++ [inst]) inst.uid (k + 1)) = Int.ofNat (k + (x :: xs).length)
    rw [if_neg hx, ih]
    congr 1
    simp [List.length_cons]
    omega

theorem jsIndexOfUid_append_fresh (l : List Instance) (inst : Instance)
    (h : ∀ i ∈ l, i.uid ≠ inst.uid) :
    jsIndexOfUid (l ++ [inst]) inst.uid = Int.ofNat l.length := by
  have := jsIndexOfUidAux_append inst l 0 h
  simpa [jsIndexOfUid] using this

theorem downgradeNode_found (s : MState) (e : Nat) (inst : Instance) (d : String)
    (hfind : findCreatedComponentByNode s.createdComponents e = some inst)
    (hdg : inst.config.classConstructor.hasDowngrade = true)
    (hattr : getAttr s.attrs inst.element = some d) :
    downgradeElements (NodesArg.node e) s =
      ({ s with
          createdComponents :=
            jsSpliceRemove1 s.createdComponents (jsIndexOfUid s.createdComponents inst.uid)
          attrs := setAttr s.attrs inst.element
            (jsJoinComma (jsSpliceRemove1 (jsSplitComma d) (-1)))
          events := s.events ++ [(inst.element, "mdl-componentdowngraded")] }, none) := by
  show deconstructComponent (findCreatedComponentByNode s.createdComponents e) s = _
  rw [hfind]
  unfold deconstructComponent
  simp only [hdg, if_true]
  rw [hattr]
  simp [jsIndexOfStrOpt, Registration.classAsStringRead]

theorem countInstancesFor_zero (l : List Instance) (e : Nat) (b : String)
    (h : ∀ i ∈ l, i.element ≠ e) : countInstancesFor l e b = 0 := by
  simp only [countInstancesFor, List.length_eq_zero, List.filter_eq_nil_iff]
  intro a ha
  simp [h a ha]

/-- Claim C2 (amended): for a registered behavior whose id is nonempty and
comma-free and whose constructor prototype carries the `mdlDowngrade_`
teardown hook, and an element with no marker and no live instance (in a state
whose instance serials are below the allocation counter), the sequence
`upgradeElement(E, B)`, `downgrade(E)`, `upgradeElement(E, B)` raises no error
and ends with exactly one live `(E, B)` instance and a marker carrying the
token `B` exactly once. -/
theorem upgrade_downgrade_upgrade_round_trip (s : MState) (e : Nat) (B : String)
    (rc : Registration)
    (hB : B ≠ "") (hBc : ',' ∉ B.data)
    (hA : getAttr s.attrs e = none)
    (hf : findRegisteredClass B s.registeredComponents = some rc)
    (hdg : rc.classConstructor.hasDowngrade = true)
    (hel : ∀ i ∈ s.createdComponents, i.element ≠ e)
    (hwf : ∀ i ∈ s.createdComponents, i.uid < s.nextUid) :
    (upgradeElement e B s).2 = none ∧
    (downgradeElements (NodesArg.node e) (upgradeElement e B s).1).2 = none ∧
    (upgradeElement e B
      (downgradeElements (NodesArg.node e) (upgradeElement e B s).1).1).2 = none ∧
    countInstancesFor
      (upgradeElement e B
        (downgradeElements (NodesArg.node e) (upgradeElement e B s).1).1).1.createdComponents
      e B = 1 ∧
    markerTokenCount
      (getAttr (upgradeElement e B
        (downgradeElements (NodesArg.node e) (upgradeElement e B s).1).1).1.attrs e)
      B = 1 := by
  have hA1 : markerBlocks (getAttr s.attrs e) B = false := by rw [hA]; rfl
  have h1 := upgradeElement_success s e B rc hA1 hf
  rw [hA] at h1
  simp only [Option.getD_none, string_nil_append] at h1
  have hfind : findCreatedComponentByNode
      (s.createdComponents ++ [{ uid := s.nextUid, element := e, config := rc }]) e =
      some { uid := s.nextUid, element := e, config := rc } :=
    findByNode_append_last s.createdComponents _ e hel rfl
  have hattrS1 : getAttr (setAttr s.attrs e ("," ++ B)) e = some ("," ++ B) :=
    getAttr_setAttr_self s.attrs e _
  have hidx : jsIndexOfUid
      (s.createdComponents ++ [{ uid := s.nextUid, element := e, config := rc }]) s.nextUid =
      Int.ofNat s.createdComponents.length :=
    jsIndexOfUid_append_fresh s.createdComponents _ (fun i hi => Nat.ne_of_lt (hwf i hi))
  have h2 := downgradeNode_found
    { s with
        attrs := setAttr s.attrs e ("," ++ B)
        createdComponents :=
          s.createdComponents ++ [{ uid := s.nextUid, element := e, config := rc }]
        nextUid := s.nextUid + 1
        callbackLog := s.callbackLog ++ rc.callbacks.map (fun c => (c, e))
        props := if rc.widget then s.props ++ [(e, B, s.nextUid)] else s.props
        events := s.events ++ [(e, "mdl-componentupgraded")] }
    e { uid := s.nextUid, element := e, config := rc } ("," ++ B)
    hfind hdg hattrS1
  rw [hidx, jsSpliceRemove1_ofNat_last, jsSplitComma_comma_cons B hBc,
    jsSpliceRemove1_pair] at h2
  have hjoin : jsJoinComma [""] = "" := rfl
  rw [hjoin] at h2
  simp only [h1, h2]
  have hattrS2 : getAttr (setAttr (setAttr s.attrs e ("," ++ B)) e "") e = some "" :=
    getAttr_setAttr_self _ e _
  have hA3 : markerBlocks (getAttr (setAttr (setAttr s.attrs e ("," ++ B)) e "") e) B = false := by
    rw [hattrS2]
    show strHasSub "" B = false
    exact strHasSub_empty_left hB
  have h3 := upgradeElement_success
    { s with
        attrs := setAttr (setAttr s.attrs e ("," ++ B)) e ""
        props := if rc.widget then s.props ++ [(e, B, s.nextUid)] else s.props
        callbackLog := s.callbackLog ++ rc.callbacks.map (fun c => (c, e))
        events := s.events ++ [(e, "mdl-componentupgraded")] ++ [(e, "mdl-componentdowngraded")]
        nextUid := s.nextUid + 1 }
    e B rc hA3 hf
  simp only [hattrS2, Option.getD_some, string_nil_append] at h3
  simp only [h3]
  refine ⟨trivial, trivial, trivial, ?_, ?_⟩
  · rw [countInstancesFor_append, countInstancesFor_zero s.createdComponents e B hel,
      countInstancesFor_single_match _ e B rfl (findRegisteredClass_className B _ rc hf)]
  · rw [getAttr_setAttr_self]
    exact markerTokenCount_comma_self B hB hBc

theorem upgrade_downgrade_upgrade_round_trip_witness :
    (upgradeElement 0 "MaterialButton"
      (initState [tdButtonReg] [])).2 = none ∧
    (downgradeElements (NodesArg.node 0)
      (upgradeElement 0 "MaterialButton"
        (initState [tdButtonReg] [])).1).2 = none ∧
    (upgradeElement 0 "MaterialButton"
      (downgradeElements (NodesArg.node 0)
        (upgradeElement 0 "MaterialButton"
          (initState [tdButtonReg] [])).1).1).2 = none ∧
    countInstancesFor
      (upgradeElement 0 "MaterialButton"
        (downgradeElements (NodesArg.node 0)
          (upgradeElement 0 "MaterialButton"
            (initState [tdButtonReg] [])).1).1).1.createdComponents
      0 "MaterialButton" = 1 ∧
    markerTokenCount
      (getAttr (upgradeElement 0 "MaterialButton"
        (downgradeElements (NodesArg.node 0)
          (upgradeElement 0 "MaterialButton"
            (initState [tdButtonReg] [])).1).1).1.attrs 0)
      "MaterialButton" = 1 :=
  upgrade_downgrade_upgrade_round_trip (initState [tdButtonReg] []) 0 "MaterialButton"
    tdButtonReg
    (by decide) (by decide) (by decide) (by decide) (by decide) (by decide) (by decide)

/-- Claim C2 counterexample: the empty string can be registered as a behavior
id whose instances carry the teardown hook; the sequence upgrade, downgrade,
upgrade on a fresh element then ends with NO live instance for the pair — the
downgrade leaves the marker `""`, whose `indexOf("")` is `0`, so the second
upgrade is skipped by the guard and never recreates the instance. -/
theorem round_trip_empty_id_loses_instance :
    countInstancesFor
      (upgradeElement 0 ""
        (downgradeElements (NodesArg.node 0)
          (upgradeElement 0 "" (initState [emptyIdReg] [])).1).1).1.createdComponents
      0 "" = 0 ∧
    ¬ (countInstancesFor
        (upgradeElement 0 ""
          (downgradeElements (NodesArg.node 0)
            (upgradeElement 0 "" (initState [emptyIdReg] [])).1).1).1.createdComponents
        0 "" = 1 ∧
      markerTokenCount
        (getAttr (upgradeElement 0 ""
          (downgradeElements (NodesArg.node 0)
            (upgradeElement 0 "" (initState [emptyIdReg] [])).1).1).1.attrs 0)
        "" = 1) := by
  decide

end MDL

namespace MDL

theorem upgradeElement_regs (e : Nat) (j : String) (s : MState) :
    (upgradeElement e j s).1.registeredComponents = s.registeredComponents := by
  unfold upgradeElement
  by_cases h : markerBlocks (getAttr s.attrs e) j = true
  · simp [h]
  · simp only [Bool.not_eq_true] at h
    cases hf : findRegisteredClass j s.registeredComponents <;> simp [h, hf]

theorem upgradeElementsLoop_regs :
    ∀ (es : List Nat) (j : String) (s : MState),
      (upgradeElementsLoop es j s).1.registeredComponents = s.registeredComponents
  | [], _, _ => rfl
  | e :: es, j, s => by
    have h1 := upgradeElement_regs e j s
    cases hu : upgradeElement e j s with
    | mk s1 err =>
      rw [hu] at h1
      cases err with
      | none =>
        have h2 := upgradeElementsLoop_regs es j s1
        simp only [upgradeElementsLoop, hu]
        rw [h2, h1]
      | some msg =>
        simp only [upgradeElementsLoop, hu]
        exact h1

theorem upgradeDomSingle_regs (j : String) (c : Option String) (s : MState) :
    (upgradeDomSingle j c s).1.registeredComponents = s.registeredComponents := by
  unfold upgradeDomSingle
  exact upgradeElementsLoop_regs _ j s

theorem upgradeDomSingle_resolve (s : MState) (r : Registration)
    (h : findRegisteredClass r.className s.registeredComponents = some r) :
    upgradeDomSingle r.className none s = upgradeDomSingle r.className (some r.cssClass) s := by
  unfold upgradeDomSingle
  rw [h]

theorem scanAux (R : List Registration)
    (hU : R.Pairwise fun a b => a.className ≠ b.className) :
    ∀ (l : List Registration) (s : MState), (∀ r ∈ l, r ∈ R) →
      s.registeredComponents = R →
      upgradeAllRegisteredList l s = upgradeDomList l s
  | [], _, _, _ => rfl
  | r :: rs, s, hsub, hsR => by
    have hmem : r ∈ R := hsub r (List.mem_cons_self r rs)
    have hfind : findRegisteredClass r.className s.registeredComponents = some r := by
      rw [hsR]
      exact findRegisteredClass_mem R r hU hmem
    have hres := upgradeDomSingle_resolve s r hfind
    have hregs := upgradeDomSingle_regs r.className (some r.cssClass) s
    show (match upgradeDomSingle r.className none s with
      | (s1, none) => upgradeAllRegisteredList rs s1
      | (s1, some msg) => (s1, some msg)) =
      (match upgradeDomSingle r.className (some r.cssClass) s with
      | (s1, none) => upgradeDomList rs s1
      | (s1, some msg) => (s1, some msg))
    rw [hres]
    cases hu : upgradeDomSingle r.className (some r.cssClass) s with
    | mk s1 err =>
      rw [hu] at hregs
      cases err with
      | none =>
        show upgradeAllRegisteredList rs s1 = upgradeDomList rs s1
        exact scanAux R hU rs s1 (fun x hx => hsub x (List.mem_cons_of_mem r hx))
          (hregs.trans hsR)
      | some msg => rfl

/-- Claim C8: for every engine state whose registration ids are pairwise
distinct (the invariant `register` maintains) and every document,
`upgradeAllRegistered()` — which scans each registration by id only, letting
`upgradeDom` re-resolve the selector — produces exactly the same final state
and outcome as `scanDocument()` with no arguments (`upgradeDom(undefined,
undefined)`), which scans each registration with its own recorded selector. -/
theorem upgradeAllRegistered_eq_scanDocument (s : MState)
    (hU : s.registeredComponents.Pairwise fun a b => a.className ≠ b.className) :
    upgradeAllRegistered s = upgradeDomAll s :=
  scanAux s.registeredComponents hU s.registeredComponents s (fun _ hr => hr) rfl

theorem upgradeAllRegistered_eq_scanDocument_witness :
    upgradeAllRegistered
      (initState [buttonReg, emptyIdReg]
        [⟨0, ["mdl-js-button"]⟩, ⟨1, ["mdl-js-x"]⟩, ⟨2, ["mdl-js-button", "mdl-js-x"]⟩]) =
    upgradeDomAll
      (initState [buttonReg, emptyIdReg]
        [⟨0, ["mdl-js-button"]⟩, ⟨1, ["mdl-js-x"]⟩, ⟨2, ["mdl-js-button", "mdl-js-x"]⟩]) :=
  upgradeAllRegistered_eq_scanDocument
    (initState [buttonReg, emptyIdReg]
      [⟨0, ["mdl-js-button"]⟩, ⟨1, ["mdl-js-x"]⟩, ⟨2, ["mdl-js-button", "mdl-js-x"]⟩])
    (by decide)

end MDL
